import Mathlib

/-!
Shallow embedding of the device-resident command-and-update engine of
src/micropython_firmware/main.py (class WebSerialESP32), covering the
Frame Reader, Binary Transfer Engine, OTA Update Manager, Command
Dispatcher, Batch Executor and Response Encoder.

Modelling conventions:
- The fixed bytearrays (command_buffer, binary_buffer) with a write cursor
  are represented by the list of live bytes (the slice buf[:cursor]); the
  Python code only ever reads that slice, so the representation is
  observationally equivalent.  Resetting the cursor to 0 is represented by
  setting the list to [].
- Machine integers are Nat/Int (MicroPython ints are arbitrary precision
  anyway).  Byte values are Nat.
- The filesystem (uos) is an association list from filename to byte
  content.  uos.remove wrapped in a bare try/except (best-effort) is a
  total filter; uos.rename and uos.stat can fail when the source file is
  absent and are Option-valued.
- External library calls and collaborators are threaded through an Env
  record: utime.ticks_ms (now), gc.mem_free (freeMem), hashlib.md5 +
  ubinascii.hexlify (md5), ujson.loads (parseJson), sys.version
  (sysVersion), and the hardware handlers of the registry (gpio/adc/i2c/
  spi/wifi), which per the spec own all hardware side effects and do not
  touch the engine state modelled here (hw).
- The float expressions of the source are modelled exactly over Int/Nat:
  size > free_mem * 0.8 becomes 5 * size > 4 * free_mem; the float
  progress percentage of the ota_progress response is not modelled (the
  raw received/total counts are).
-/

/-- Device filesystem: filename to byte content. -/
def FS : Type := List (String × List Nat)

/-- Look a file up by name (first match). -/
def fsLookup : FS → String → Option (List Nat)
  | [], _ => none
  | (n, c) :: rest, m => if m = n then some c else fsLookup rest m

/-- uos.remove wrapped in try/except pass: delete all entries of that name. -/
def fsRemove (fs : FS) (n : String) : FS :=
  match fs with
  | [] => []
  | (m, c) :: rest => if m = n then fsRemove rest n else (m, c) :: fsRemove rest n

/-- Create or truncate-and-write a file (open(n, 'wb') followed by write). -/
def fsWrite (n : String) (c : List Nat) (fs : FS) : FS :=
  (n, c) :: fsRemove fs n

/-- open(n, 'ab') + write: append to an existing file, create it otherwise. -/
def fsAppend (fs : FS) (n : String) (bytes : List Nat) : FS :=
  match fsLookup fs n with
  | some c => fsWrite n (c ++ bytes) fs
  | none => fsWrite n bytes fs

/-- uos.rename: fails (raises OSError) when the source is absent; replaces
any existing target, POSIX style. -/
def fsRename (fs : FS) (old new : String) : Option FS :=
  match fsLookup fs old with
  | none => none
  | some c => some (fsWrite new c (fsRemove fs old))

/-- uos.stat(...)[6]: the file size; raises (none) when the file is absent. -/
def fsStat (fs : FS) (n : String) : Option Int :=
  (fsLookup fs n).map (fun c => (c.length : Int))

/-- The parsed parameter object of one command (the dict passed to a
handler).  Only the fields the embedded core reads are kept; a missing
field is none (dict.get default handling is at each use site). -/
inductive CmdData where
  | mk (command : Option String) (filename : Option String) (size : Option Int)
       (checksum : Option String) (data : Option (List Nat)) (offset : Option Int)
       (commands : Option (List CmdData))

def CmdData.command : CmdData → Option String
  | .mk c _ _ _ _ _ _ => c

def CmdData.filename : CmdData → Option String
  | .mk _ f _ _ _ _ _ => f

def CmdData.size : CmdData → Option Int
  | .mk _ _ s _ _ _ _ => s

def CmdData.checksum : CmdData → Option String
  | .mk _ _ _ ck _ _ _ => ck

def CmdData.data : CmdData → Option (List Nat)
  | .mk _ _ _ _ d _ _ => d

def CmdData.offset : CmdData → Option Int
  | .mk _ _ _ _ _ o _ => o

def CmdData.commands : CmdData → Option (List CmdData)
  | .mk _ _ _ _ _ _ cs => cs

/-- A command object with only the command name set. -/
def mkCmd (c : String) : CmdData := .mk (some c) none none none none none none

/-- Responses sent over the wire (the Response Encoder wraps these as JSON;
serialization is value-preserving, so responses are modelled as values). -/
inductive Resp where
  | pong (timestamp uptime : Nat)
  | otaReady (filename : String) (expectedSize : Int) (tempFile : String)
  | otaProgress (received total : Int)
  | otaComplete (filename : String) (size : Int) (backup : String) (rebootRequired : Bool)
  | otaAborted
  | binaryReady (expectedSize : Int)
  | binaryComplete (size : Nat) (data : List Nat)
  | binaryReceived (size : Nat)
  | batchResult (total successCount errorCount : Nat)
      (results : List (Nat × Resp)) (errors : List (Nat × String))
  | textResp (message : String)
  | machineReset
  | errorResp (message : String) (timestamp : Nat)

/-- Engine state: the WebSerialESP32 instance fields used by the embedded
core, plus the device filesystem (uos). -/
@[ext] structure WS where
  buffer_size : Nat
  command_buffer : List Nat
  last_char_time : Nat
  timeout_ms : Nat
  binary_mode : Bool
  binary_buffer : List Nat
  binary_expected : Nat
  binary_received : Nat
  ota_in_progress : Bool
  ota_filename : Option String
  ota_size : Int
  ota_received : Int
  ota_checksum : Option String
  ota_temp : String
  start_time : Nat
  packet_count : Nat
  fs : FS

/-- The write cursor: number of live bytes in the command buffer. -/
def bufPos (sys : WS) : Nat := sys.command_buffer.length

/-- External collaborators and library calls (see module docstring). -/
structure Env where
  now : Nat
  freeMem : Int
  md5 : List Nat → String
  parseJson : String → Option CmdData
  sysVersion : String
  gpioWrite : Int → Int → Except String Unit
  hw : String → Option (CmdData → Except String Resp)

/-- send_error: the uniform error envelope (type error, message, timestamp). -/
def errResp (env : Env) (msg : String) : Resp := .errorResp msg env.now

/-- The state-and-outcome type of a command handler: Python handlers mutate
self and either return a result dict or raise; mutations made before a
raise persist. -/
def Handler : Type := Env → CmdData → WS → WS × Except String (Option Resp)

/-- handle_ping (main.py 262-267). -/
def handle_ping : Handler := fun env _ sys =>
  (sys, .ok (some (.pong env.now (env.now - sys.start_time))))

/-- len(self.binary_buffer): the binary capture bytearray has fixed
allocation 4096 (main.py line 28). -/
def binaryCapacity : Nat := 4096

/-- handle_binary_start (main.py 835-849). -/
def handle_binary_start : Handler := fun _ c sys =>
  let size := (CmdData.size c).getD 0
  if size ≤ 0 ∨ size > (binaryCapacity : Int) then
    (sys, .error ("Invalid size: " ++ toString size ++ " (max " ++ toString binaryCapacity ++ ")"))
  else
    ({ sys with binary_mode := true, binary_expected := size.toNat,
                binary_received := 0, binary_buffer := [] },
     .ok (some (.binaryReady size)))

/-- handle_binary_end (main.py 851-869): returns the slice
binary_buffer[:binary_received] and resets the binary state. -/
def handle_binary_end : Handler := fun _ _ sys =>
  if sys.binary_mode then
    let received_data := sys.binary_buffer.take sys.binary_received
    ({ sys with binary_mode := false, binary_received := 0, binary_expected := 0,
                binary_buffer := [] },
     .ok (some (.binaryComplete sys.binary_received received_data)))
  else
    (sys, .error "Not in binary mode")

/-- One byte of process_binary_data's loop (main.py 873-876): stored only
while received < expected; bytes beyond expected are dropped. -/
def process_binary_byte (sys : WS) (b : Nat) : WS :=
  if sys.binary_received < sys.binary_expected then
    { sys with binary_buffer := sys.binary_buffer ++ [b],
               binary_received := sys.binary_received + 1 }
  else sys

/-- process_binary_data (main.py 871-883). -/
def process_binary_data (data : List Nat) (sys : WS) : WS × List Resp :=
  let sys2 := data.foldl process_binary_byte sys
  if sys2.binary_received ≥ sys2.binary_expected then
    (sys2, [.binaryReceived sys2.binary_received])
  else (sys2, [])

/-- handle_ota_start (main.py 886-929).  Note the source performs no
ota_in_progress check: a new session simply overwrites the current fields.
The temp-file creation (remove existing + open('wb')) cannot fail in the
deterministic filesystem model, so the except branch that would reset
ota_in_progress is not reachable here. -/
def handle_ota_start : Handler := fun env c sys =>
  let filename := (CmdData.filename c).getD "main.py"
  let size := (CmdData.size c).getD 0
  let checksum := CmdData.checksum c
  if size ≤ 0 then (sys, .error "Invalid file size")
  else if 5 * size > 4 * env.freeMem then
    (sys, .error ("File too large: " ++ toString size ++ " bytes (free: " ++
                  toString env.freeMem ++ ")"))
  else
    let tmp := filename ++ ".tmp"
    ({ sys with ota_in_progress := true, ota_filename := some filename,
                ota_size := size, ota_received := 0, ota_checksum := checksum,
                ota_temp := tmp, fs := fsWrite tmp [] sys.fs },
     .ok (some (.otaReady filename size tmp)))

/-- handle_ota_chunk (main.py 931-960).  The offset field is read but never
used (writes always append); bytes(chunk_data) raises for values outside
0..255.  Note there is no received-vs-expected size check: the chunk is
appended in full and ota_received is increased by its full length. -/
def handle_ota_chunk : Handler := fun _ c sys =>
  if sys.ota_in_progress then
    let chunk := (CmdData.data c).getD []
    if chunk = [] then (sys, .error "No data in chunk")
    else if ¬ (∀ b ∈ chunk, b < 256) then
      (sys, .error "Chunk write failed: bytes() argument out of range")
    else
      let sys2 := { sys with fs := fsAppend sys.fs sys.ota_temp chunk,
                             ota_received := sys.ota_received + (chunk.length : Int) }
      (sys2, .ok (some (.otaProgress sys2.ota_received sys.ota_size)))
  else (sys, .error "No OTA in progress")

/-- Python truthiness of the stored checksum: `if self.ota_checksum:` is
false both for None and for the empty string. -/
def checksumTruthy : Option String → Bool
  | some s => ¬ (s = "")
  | none => false

/-- The backup-and-install tail of handle_ota_finish (main.py 989-1013):
best-effort removal of an old backup, best-effort rename of the target to
its backup, then the rename of the temp artifact onto the target.  The
filesystem mutations made before a failing final rename persist, as they
do in the source. -/
def ota_finish_install (sys : WS) (actual : Int) : WS × Except String Resp :=
  match sys.ota_filename with
  | none =>
    -- self.ota_filename is None: None + '.bak' raises TypeError, which the
    -- enclosing except turns into an OTA finish failure.
    (sys, .error "unsupported types for +")
  | some fname =>
    let backup := fname ++ ".bak"
    let fs1 := fsRemove sys.fs backup
    let fs2 := match fsRename fs1 fname backup with
               | some f => f
               | none => fs1
    let sys2 := { sys with fs := fs2 }
    match fsRename fs2 sys.ota_temp fname with
    | none => (sys2, .error "rename failed")
    | some fs3 =>
      ({ sys2 with fs := fs3, ota_in_progress := false },
       .ok (.otaComplete fname actual backup (fname = "main.py" ∨ fname = "boot.py")))

/-- The body of handle_ota_finish's try block (main.py 967-1013): size
verification against uos.stat, optional MD5 verification (the incremental
256-byte read loop computes the digest of the whole temp artifact), then
the install.  Mutations made before a raise persist in the first
component. -/
def ota_finish_body (env : Env) (sys : WS) : WS × Except String Resp :=
  match fsStat sys.fs sys.ota_temp with
  | none => (sys, .error "stat: no such file")
  | some actual =>
    if actual ≠ sys.ota_size then
      (sys, .error ("Size mismatch: expected " ++ toString sys.ota_size ++
                    ", got " ++ toString actual))
    else if checksumTruthy sys.ota_checksum ∧
            ¬ (env.md5 ((fsLookup sys.fs sys.ota_temp).getD []) = sys.ota_checksum.getD "") then
      (sys, .error "Checksum mismatch")
    else ota_finish_install sys actual

/-- handle_ota_finish (main.py 962-1021).  The no-session check sits before
the try block; any exception inside it triggers best-effort temp removal
and a forced reset of ota_in_progress before the error propagates. -/
def handle_ota_finish : Handler := fun env _ sys =>
  if sys.ota_in_progress then
    match ota_finish_body env sys with
    | (sys2, .ok r) => (sys2, .ok (some r))
    | (sys2, .error e) =>
      ({ sys2 with fs := fsRemove sys2.fs sys2.ota_temp, ota_in_progress := false },
       .error ("OTA finish failed: " ++ e))
  else (sys, .error "No OTA in progress")

/-- handle_ota_abort (main.py 1023-1039).  Note ota_checksum and ota_temp
are not cleared by the source. -/
def handle_ota_abort : Handler := fun _ _ sys =>
  let fs2 := if sys.ota_in_progress then fsRemove sys.fs sys.ota_temp else sys.fs
  ({ sys with fs := fs2, ota_in_progress := false, ota_filename := none,
              ota_size := 0, ota_received := 0 },
   .ok (some .otaAborted))

/-- The protocol-level entries of the handler table (main.py 57-86) other
than batch, which is dispatched separately to break the definition cycle.
The hardware/network/filesystem capability handlers of the table (gpio_*,
adc_read, i2c_*, spi_transfer, wifi_*, file_*, reboot, version,
system_info) are external collaborators: they are reached through Env.hw
below and do not touch the engine state modelled here. -/
def handlersNB : String → Option Handler
  | "ping" => some handle_ping
  | "binary_start" => some handle_binary_start
  | "binary_end" => some handle_binary_end
  | "ota_start" => some handle_ota_start
  | "ota_chunk" => some handle_ota_chunk
  | "ota_finish" => some handle_ota_finish
  | "ota_abort" => some handle_ota_abort
  | _ => none

/-- self.handlers.get(cmd) is not None: the command is in the table. -/
def registered (env : Env) (cmd : String) : Bool :=
  cmd = "batch" ∨ (handlersNB cmd).isSome ∨ (env.hw cmd).isSome

/-- Invoke the table entry for a registered non-batch command.  An
external-collaborator handler leaves the modelled engine state unchanged;
an exception it raises propagates like any handler exception.  The final
branch is unreachable for registered non-batch commands. -/
def invokeRegistered (env : Env) (cmd : String) (c : CmdData) (sys : WS) :
    WS × Except String (Option Resp) :=
  match handlersNB cmd with
  | some h => h env c sys
  | none =>
    match env.hw cmd with
    | some f => (sys, (f c).map some)
    | none => (sys, .error ("Unknown command: " ++ cmd))

/-- One iteration of handle_batch's loop (main.py 800-823): the checks run
in source order (missing command field, table lookup, nested batch), and
only then is the handler invoked; the surrounding try/except turns a
handler exception into an indexed error while keeping the state mutations
the handler made before raising. -/
def batchItem (env : Env) (c : CmdData) (sys : WS) : WS × Except String (Option Resp) :=
  match CmdData.command c with
  | none => (sys, .error "No command specified")
  | some cmd =>
    if registered env cmd then
      if cmd = "batch" then (sys, .error "Nested batch not allowed")
      else invokeRegistered env cmd c sys
    else (sys, .error ("Unknown command: " ++ cmd))

/-- handle_batch's indexed loop (main.py 797-823): results collects
(index, result) for handlers that returned a truthy result, errors
collects (index, message), both in iteration order. -/
def batchLoop (env : Env) : List CmdData → Nat → WS →
    WS × List (Nat × Resp) × List (Nat × String)
  | [], _, sys => (sys, [], [])
  | c :: rest, i, sys =>
    match batchItem env c sys with
    | (sys2, .ok (some r)) =>
      let (sys3, rs, es) := batchLoop env rest (i + 1) sys2
      (sys3, (i, r) :: rs, es)
    | (sys2, .ok none) =>
      batchLoop env rest (i + 1) sys2
    | (sys2, .error e) =>
      let (sys3, rs, es) := batchLoop env rest (i + 1) sys2
      (sys3, rs, (i, e) :: es)

/-- handle_batch (main.py 790-832). -/
def handle_batch : Handler := fun env c sys =>
  let commands := (CmdData.commands c).getD []
  if commands.isEmpty then (sys, .error "No commands provided")
  else
    let (sys2, rs, es) := batchLoop env commands 0 sys
    (sys2, .ok (some (.batchResult commands.length rs.length es.length rs es)))

/-- The handler invocation step of process_json_command: batch goes to the
Batch Executor, everything else through the table. -/
def dispatchHandler (env : Env) (cmd : String) (c : CmdData) (sys : WS) :
    WS × Except String (Option Resp) :=
  if cmd = "batch" then handle_batch env c sys else invokeRegistered env cmd c sys

/-- process_json_command (main.py 218-235): missing command field, unknown
command, handler invocation with exception capture; a truthy result is
sent as-is via send_json (main.py 244-250), a falsy one sends nothing. -/
def process_json_command (env : Env) (c : CmdData) (sys : WS) : WS × List Resp :=
  match CmdData.command c with
  | none => (sys, [errResp env "No command specified"])
  | some cmd =>
    if registered env cmd then
      match dispatchHandler env cmd c sys with
      | (sys2, .ok (some r)) => (sys2, [r])
      | (sys2, .ok none) => (sys2, [])
      | (sys2, .error e) => (sys2, [errResp env ("Handler error: " ++ e)])
    else (sys, [errResp env ("Unknown command: " ++ cmd)])

/-- One step of strict UTF-8 decoding (bytes.decode('utf-8')): consume the
lead byte b and its continuation bytes from rest, returning the code point
and the remaining bytes.  Overlong 2-byte forms, surrogates and code
points above U+10FFFF are rejected, as CPython rejects them. -/
def utf8Step (b : Nat) (rest : List Nat) : Option (Nat × List Nat) :=
  if b < 0x80 then some (b, rest)
  else if b < 0xC2 then none
  else if b < 0xE0 then
    match rest with
    | b1 :: rest2 =>
      if 0x80 ≤ b1 ∧ b1 < 0xC0 then
        some ((b - 0xC0) * 0x40 + (b1 - 0x80), rest2)
      else none
    | [] => none
  else if b < 0xF0 then
    match rest with
    | b1 :: b2 :: rest2 =>
      if 0x80 ≤ b1 ∧ b1 < 0xC0 ∧ 0x80 ≤ b2 ∧ b2 < 0xC0 then
        let cp := (b - 0xE0) * 0x1000 + (b1 - 0x80) * 0x40 + (b2 - 0x80)
        if cp < 0x800 ∨ (0xD800 ≤ cp ∧ cp < 0xE000) then none
        else some (cp, rest2)
      else none
    | _ => none
  else if b < 0xF5 then
    match rest with
    | b1 :: b2 :: b3 :: rest2 =>
      if 0x80 ≤ b1 ∧ b1 < 0xC0 ∧ 0x80 ≤ b2 ∧ b2 < 0xC0 ∧ 0x80 ≤ b3 ∧ b3 < 0xC0 then
        let cp := (b - 0xF0) * 0x40000 + (b1 - 0x80) * 0x1000 +
                  (b2 - 0x80) * 0x40 + (b3 - 0x80)
        if cp < 0x10000 ∨ cp > 0x10FFFF then none
        else some (cp, rest2)
      else none
    | _ => none
  else none

/-- Decode a byte list; fuel-based recursion with fuel = byte count, which
is exact because every step consumes at least the lead byte. -/
def decodeUtf8Aux : Nat → List Nat → Option (List Char)
  | _, [] => some []
  | 0, _ :: _ => none
  | fuel + 1, b :: rest =>
    match utf8Step b rest with
    | none => none
    | some (cp, rest2) => (decodeUtf8Aux fuel rest2).map (fun cs => Char.ofNat cp :: cs)

def decodeUtf8 (bs : List Nat) : Option String :=
  (decodeUtf8Aux bs.length bs).map String.mk

/-- The characters MicroPython's str.strip()/str.split() treat as
whitespace: exactly the six bytes of " \t\n\r\v\f" (py/objstr.c's
whitespace table); unlike CPython, the C1 controls \x1c-\x1f are NOT
whitespace on this runtime, so frames made of them are dispatched as text
commands rather than dropped. -/
def isPySpace (c : Char) : Bool :=
  c = ' ' ∨ c = '\t' ∨ c = '\n' ∨ c = '\x0d' ∨ c = '\x0b' ∨ c = '\x0c'

/-- str.strip(): drop leading and trailing whitespace. -/
def pyStrip (s : String) : String :=
  String.mk (((s.data.dropWhile isPySpace).reverse.dropWhile isPySpace).reverse)

/-- process_text_command (main.py 197-216).  The gpio form calls the
external handle_gpio_write collaborator and drops its return value; a
non-integer argument raises ValueError in int(), which the enclosing
process_buffer try/except reports as a processing error. -/
def process_text_command (env : Env) (command : String) (sys : WS) : WS × List Resp :=
  let parts := (command.split isPySpace).filter (fun s => ¬ (s = ""))
  let cmd := (parts.headD "").toLower
  if cmd = "help" then
    (sys, [.textResp "Available commands: version, gpio, adc, i2c, spi, reboot, files"])
  else if cmd = "version" then
    (sys, [.textResp ("MicroPython " ++ env.sysVersion)])
  else if cmd = "gpio" then
    if parts.length ≥ 3 then
      match (parts.getD 1 "").toInt?, (parts.getD 2 "").toInt? with
      | some pin, some value =>
        match env.gpioWrite pin value with
        | .ok _ => (sys, [])
        | .error e => (sys, [errResp env ("Handler error: " ++ e)])
      | _, _ => (sys, [errResp env "Processing error: invalid literal for int()"])
    else (sys, [.textResp "Usage: gpio <pin> <0/1>"])
  else if cmd = "reboot" then (sys, [.machineReset])
  else (sys, [errResp env ("Unknown command: " ++ cmd)])

/-- process_buffer (main.py 166-195): nothing happens on an empty buffer;
otherwise the live bytes are decoded and stripped, the cursor is reset,
empty commands are skipped without counting, and non-empty ones are
counted and dispatched as JSON (leading brace) or text.  A decode failure
is caught by the enclosing except, which reports a processing error and
resets the cursor. -/
def process_buffer (env : Env) (sys : WS) : WS × List Resp :=
  if bufPos sys = 0 then (sys, [])
  else
    match decodeUtf8 sys.command_buffer with
    | none =>
      ({ sys with command_buffer := [] },
       [errResp env "Processing error: utf-8 decode error"])
    | some s =>
      let command := pyStrip s
      let sys2 := { sys with command_buffer := [] }
      if command = "" then (sys2, [])
      else
        let sys3 := { sys2 with packet_count := sys2.packet_count + 1 }
        if command.startsWith "\x7b" then
          match env.parseJson command with
          | none => (sys3, [errResp env "Invalid JSON: parse error"])
          | some c => process_json_command env c sys3
        else process_text_command env command sys3

/-- process_data (main.py 152-164): per byte, a line terminator completes
the frame; otherwise the byte is appended while the cursor stays below
buffer_size - 1, and once it cannot be, a buffer-overflow error is sent
and the cursor resets. -/
def process_data (env : Env) : List Nat → WS → WS × List Resp
  | [], sys => (sys, [])
  | b :: rest, sys =>
    if b = 10 ∨ b = 13 then
      let (sys2, out) := process_buffer env sys
      let (sys3, out2) := process_data env rest sys2
      (sys3, out ++ out2)
    else if bufPos sys < sys.buffer_size - 1 then
      process_data env rest
        { sys with command_buffer := sys.command_buffer ++ [b], last_char_time := env.now }
    else
      let (sys3, out2) := process_data env rest { sys with command_buffer := [] }
      (sys3, errResp env "Buffer overflow" :: out2)

/-- The incoming-data half of process (main.py 140-144): bytes are diverted
to the Binary Transfer Engine while binary mode is active. -/
def process_incoming (env : Env) (data : List Nat) (sys : WS) : WS × List Resp :=
  if sys.binary_mode then process_binary_data data sys else process_data env data sys

/-- The inactivity-flush tail of process (main.py 148-150): in text mode,
with a non-empty buffer, once more than timeout_ms has elapsed since the
last byte, the partial buffer is processed as a complete frame. -/
def process_timeout (env : Env) (sys : WS) : WS × List Resp :=
  if sys.binary_mode = false ∧ bufPos sys > 0 ∧
     env.now - sys.last_char_time > sys.timeout_ms then
    process_buffer env sys
  else (sys, [])

/-- The engine state right after __init__ (main.py 16-102) with the given
buffer_size argument (default 2048), on a device whose filesystem is fs;
start_time is the tick value at construction. -/
def initWS (buffer_size : Nat) (t0 : Nat) (fs : FS) : WS :=
  { buffer_size := buffer_size, command_buffer := [], last_char_time := 0,
    timeout_ms := 100, binary_mode := false, binary_buffer := [],
    binary_expected := 0, binary_received := 0, ota_in_progress := false,
    ota_filename := none, ota_size := 0, ota_received := 0,
    ota_checksum := none, ota_temp := "", start_time := t0,
    packet_count := 0, fs := fs }

/-! Basic facts about the filesystem model. -/

theorem fsLookup_fsRemove (fs : FS) (n m : String) :
    fsLookup (fsRemove fs n) m = if m = n then none else fsLookup fs m := by
  induction fs with
  | nil => simp [fsRemove, fsLookup]
  | cons a rest ih =>
    obtain ⟨p, c⟩ := a
    by_cases hpn : p = n
    · subst hpn
      by_cases hmp : m = p
      · subst hmp; simp [fsRemove, fsLookup, ih]
      · simp [fsRemove, fsLookup, hmp, ih]
    · by_cases hmp : m = p
      · subst hmp
        simp [fsRemove, fsLookup, hpn, Ne.symm hpn]
      · simp [fsRemove, fsLookup, hpn, hmp, ih]

theorem fsLookup_fsWrite (n : String) (c : List Nat) (fs : FS) (m : String) :
    fsLookup (fsWrite n c fs) m = if m = n then some c else fsLookup fs m := by
  unfold fsWrite
  by_cases hmn : m = n
  · simp [fsLookup, hmn]
  · simp [fsLookup, hmn, fsLookup_fsRemove]

theorem fsLookup_fsAppend (fs : FS) (n : String) (bs : List Nat) (m : String) :
    fsLookup (fsAppend fs n bs) m =
      if m = n then some ((fsLookup fs n).getD [] ++ bs) else fsLookup fs m := by
  unfold fsAppend
  cases h : fsLookup fs n <;> simp [h, fsLookup_fsWrite]

theorem fsRename_none (fs : FS) (old new : String) :
    fsRename fs old new = none ↔ fsLookup fs old = none := by
  unfold fsRename
  cases fsLookup fs old <;> simp

theorem fsRename_some (fs : FS) (old new : String) (fs' : FS)
    (h : fsRename fs old new = some fs') :
    ∃ c, fsLookup fs old = some c ∧ fs' = fsWrite new c (fsRemove fs old) := by
  unfold fsRename at h
  cases hl : fsLookup fs old with
  | none => rw [hl] at h; exact absurd h (by simp)
  | some c => rw [hl] at h; exact ⟨c, rfl, by injection h with h2; exact h2.symm⟩

/-! Frame-reader fields are untouched by command handlers: no handler of the
embedded table writes command_buffer or buffer_size, so dispatch from
process_buffer cannot resurrect the cursor it has just cleared. -/

def frameEq (sys sys2 : WS) : Prop :=
  sys2.command_buffer = sys.command_buffer ∧ sys2.buffer_size = sys.buffer_size

theorem frameEq_refl (sys : WS) : frameEq sys sys := ⟨rfl, rfl⟩

theorem frameEq_trans {a b c : WS} (h1 : frameEq a b) (h2 : frameEq b c) :
    frameEq a c := ⟨h2.1.trans h1.1, h2.2.trans h1.2⟩

theorem handle_ping_frame (env : Env) (c : CmdData) (sys : WS) :
    frameEq sys (handle_ping env c sys).1 := ⟨rfl, rfl⟩

theorem handle_binary_start_frame (env : Env) (c : CmdData) (sys : WS) :
    frameEq sys (handle_binary_start env c sys).1 := by
  unfold handle_binary_start
  dsimp only
  split <;> exact ⟨rfl, rfl⟩

theorem handle_binary_end_frame (env : Env) (c : CmdData) (sys : WS) :
    frameEq sys (handle_binary_end env c sys).1 := by
  unfold handle_binary_end
  dsimp only
  split <;> exact ⟨rfl, rfl⟩

theorem handle_ota_start_frame (env : Env) (c : CmdData) (sys : WS) :
    frameEq sys (handle_ota_start env c sys).1 := by
  unfold handle_ota_start
  dsimp only
  split
  · exact ⟨rfl, rfl⟩
  · split <;> exact ⟨rfl, rfl⟩

theorem handle_ota_chunk_frame (env : Env) (c : CmdData) (sys : WS) :
    frameEq sys (handle_ota_chunk env c sys).1 := by
  unfold handle_ota_chunk
  dsimp only
  split
  · split
    · exact ⟨rfl, rfl⟩
    · split <;> exact ⟨rfl, rfl⟩
  · exact ⟨rfl, rfl⟩

theorem ota_finish_install_frame (sys : WS) (actual : Int) :
    frameEq sys (ota_finish_install sys actual).1 := by
  unfold ota_finish_install
  split
  · exact ⟨rfl, rfl⟩
  · dsimp only
    split <;> exact ⟨rfl, rfl⟩

theorem ota_finish_body_frame (env : Env) (sys : WS) :
    frameEq sys (ota_finish_body env sys).1 := by
  unfold ota_finish_body
  split
  · exact ⟨rfl, rfl⟩
  · split
    · exact ⟨rfl, rfl⟩
    · split
      · exact ⟨rfl, rfl⟩
      · exact ota_finish_install_frame sys _

theorem handle_ota_finish_frame (env : Env) (c : CmdData) (sys : WS) :
    frameEq sys (handle_ota_finish env c sys).1 := by
  unfold handle_ota_finish
  split
  · split <;> rename_i heq <;>
      (have h2 := ota_finish_body_frame env sys; rw [heq] at h2; exact h2)
  · exact ⟨rfl, rfl⟩

theorem handle_ota_abort_frame (env : Env) (c : CmdData) (sys : WS) :
    frameEq sys (handle_ota_abort env c sys).1 := ⟨rfl, rfl⟩

theorem handlersNB_frame (cmd : String) (h : Handler) (hh : handlersNB cmd = some h)
    (env : Env) (c : CmdData) (sys : WS) : frameEq sys (h env c sys).1 := by
  unfold handlersNB at hh
  split at hh
  · injection hh with hh2; rw [← hh2]; exact handle_ping_frame env c sys
  · injection hh with hh2; rw [← hh2]; exact handle_binary_start_frame env c sys
  · injection hh with hh2; rw [← hh2]; exact handle_binary_end_frame env c sys
  · injection hh with hh2; rw [← hh2]; exact handle_ota_start_frame env c sys
  · injection hh with hh2; rw [← hh2]; exact handle_ota_chunk_frame env c sys
  · injection hh with hh2; rw [← hh2]; exact handle_ota_finish_frame env c sys
  · injection hh with hh2; rw [← hh2]; exact handle_ota_abort_frame env c sys
  · exact absurd hh (by simp)

theorem invokeRegistered_frame (env : Env) (cmd : String) (c : CmdData) (sys : WS) :
    frameEq sys (invokeRegistered env cmd c sys).1 := by
  unfold invokeRegistered
  cases hh : handlersNB cmd with
  | some h => exact handlersNB_frame cmd h hh env c sys
  | none =>
    dsimp only
    cases env.hw cmd <;> exact ⟨rfl, rfl⟩

theorem batchItem_frame (env : Env) (c : CmdData) (sys : WS) :
    frameEq sys (batchItem env c sys).1 := by
  unfold batchItem
  split
  · exact ⟨rfl, rfl⟩
  · split
    · split
      · exact ⟨rfl, rfl⟩
      · exact invokeRegistered_frame env _ c sys
    · exact ⟨rfl, rfl⟩

theorem batchLoop_frame (env : Env) (cs : List CmdData) (i : Nat) (sys : WS) :
    frameEq sys (batchLoop env cs i sys).1 := by
  induction cs generalizing i sys with
  | nil => exact ⟨rfl, rfl⟩
  | cons c rest ih =>
    unfold batchLoop
    have hitem := batchItem_frame env c sys
    split
    · rename_i sys2 r heq
      rw [heq] at hitem
      exact frameEq_trans hitem (ih (i + 1) sys2)
    · rename_i sys2 heq
      rw [heq] at hitem
      exact frameEq_trans hitem (ih (i + 1) sys2)
    · rename_i sys2 e heq
      rw [heq] at hitem
      exact frameEq_trans hitem (ih (i + 1) sys2)

theorem handle_batch_frame (env : Env) (c : CmdData) (sys : WS) :
    frameEq sys (handle_batch env c sys).1 := by
  unfold handle_batch
  dsimp only
  split
  · exact ⟨rfl, rfl⟩
  · have h2 := batchLoop_frame env ((CmdData.commands c).getD []) 0 sys
    rcases heq : batchLoop env ((CmdData.commands c).getD []) 0 sys with ⟨sys2, rs, es⟩
    rw [heq] at h2
    simp only [heq]
    exact h2

theorem dispatchHandler_frame (env : Env) (cmd : String) (c : CmdData) (sys : WS) :
    frameEq sys (dispatchHandler env cmd c sys).1 := by
  unfold dispatchHandler
  split
  · exact handle_batch_frame env c sys
  · exact invokeRegistered_frame env cmd c sys

theorem process_json_command_frame (env : Env) (c : CmdData) (sys : WS) :
    frameEq sys (process_json_command env c sys).1 := by
  unfold process_json_command
  split
  · exact ⟨rfl, rfl⟩
  · rename_i cmd hcmd
    split
    · split <;> rename_i heq <;>
        (have h2 := dispatchHandler_frame env cmd c sys; rw [heq] at h2; exact h2)
    · exact ⟨rfl, rfl⟩

theorem process_text_command_frame (env : Env) (s : String) (sys : WS) :
    frameEq sys (process_text_command env s sys).1 := by
  unfold process_text_command
  dsimp only
  repeat' split
  all_goals exact ⟨rfl, rfl⟩

/-- process_buffer always leaves the cursor at zero: every path either
returns with an already-empty buffer or clears it before dispatch, and no
handler writes the frame-reader fields. -/
theorem process_buffer_clears (env : Env) (sys : WS) :
    (process_buffer env sys).1.command_buffer = [] ∧
    (process_buffer env sys).1.buffer_size = sys.buffer_size := by
  unfold process_buffer
  split
  · rename_i h0
    have : sys.command_buffer = [] := List.length_eq_zero.mp h0
    simp [this]
  · split
    · exact ⟨rfl, rfl⟩
    · rename_i s hdec
      dsimp only
      split
      · exact ⟨rfl, rfl⟩
      · split
        · split
          · exact ⟨rfl, rfl⟩
          · rename_i c hparse
            have h2 := process_json_command_frame env c
              { sys with command_buffer := [],
                         packet_count := sys.packet_count + 1 }
            exact ⟨h2.1, h2.2⟩
        · have h2 := process_text_command_frame env (pyStrip s)
            { sys with command_buffer := [],
                       packet_count := sys.packet_count + 1 }
          exact ⟨h2.1, h2.2⟩

/-! Decoding and stripping of whitespace-only frames. -/

/-- ASCII bytes decode to the characters of the same code points. -/
theorem decodeUtf8Aux_ascii (bs : List Nat) (fuel : Nat) (hfuel : bs.length ≤ fuel)
    (h : ∀ b ∈ bs, b < 0x80) :
    decodeUtf8Aux fuel bs = some (bs.map Char.ofNat) := by
  induction bs generalizing fuel with
  | nil => cases fuel <;> rfl
  | cons b rest ih =>
    have hb : b < 0x80 := h b (List.mem_cons_self b rest)
    have hrest : ∀ x ∈ rest, x < 0x80 := fun x hx => h x (List.mem_cons_of_mem b hx)
    cases fuel with
    | zero => exact absurd hfuel (by simp)
    | succ f =>
      have hstep : utf8Step b rest = some (b, rest) := by
        unfold utf8Step
        rw [if_pos hb]
      rw [decodeUtf8Aux, hstep]
      dsimp only
      rw [ih f (Nat.le_of_succ_le_succ hfuel) hrest]
      rfl

/-- Decoding the whole buffer as the engine does. -/
theorem decodeUtf8_ascii (bs : List Nat) (h : ∀ b ∈ bs, b < 0x80) :
    decodeUtf8 bs = some (String.mk (bs.map Char.ofNat)) := by
  unfold decodeUtf8
  rw [decodeUtf8Aux_ascii bs bs.length (Nat.le_refl _) h]
  rfl

/-- The byte values MicroPython's str.strip() removes: the codes of
" \t\n\r\v\f". -/
def wsBytes : List Nat := [9, 10, 11, 12, 13, 32]

theorem wsBytes_isPySpace : ∀ b ∈ wsBytes, isPySpace (Char.ofNat b) = true := by
  decide

/-- Stripping a string of whitespace characters leaves the empty string. -/
theorem pyStrip_all_space (s : String) (h : ∀ c ∈ s.data, isPySpace c = true) :
    pyStrip s = "" := by
  unfold pyStrip
  rw [List.dropWhile_eq_nil_iff.mpr h]
  rfl

theorem wsBytes_lt : ∀ b ∈ wsBytes, b < 0x80 := by decide

/-- C10: a frame whose accumulated bytes are all whitespace (or an empty
buffer) produces no response of any kind; the only state change is the
cursor reset, and packet_count is untouched. -/
theorem c10_whitespace_frame_silent (env : Env) (sys : WS)
    (h : ∀ b ∈ sys.command_buffer, b ∈ wsBytes) :
    process_buffer env sys = ({ sys with command_buffer := [] }, []) := by
  have hlt : ∀ b ∈ sys.command_buffer, b < 0x80 := fun b hb => wsBytes_lt b (h b hb)
  have hdec := decodeUtf8_ascii sys.command_buffer hlt
  unfold process_buffer
  split
  · rename_i h0
    have hnil : sys.command_buffer = [] := List.length_eq_zero.mp h0
    rw [← hnil]
  · split
    · rename_i heq
      rw [hdec] at heq
      exact absurd heq (by simp)
    · rename_i s heq
      rw [hdec] at heq
      injection heq with heq2
      have hsp : ∀ c ∈ s.data, isPySpace c = true := by
        rw [← heq2]
        intro ch hch
        rw [show (String.mk (List.map Char.ofNat sys.command_buffer)).data =
              List.map Char.ofNat sys.command_buffer from rfl] at hch
        obtain ⟨b, hb, rfl⟩ := List.mem_map.mp hch
        exact wsBytes_isPySpace b (h b hb)
      have hstrip := pyStrip_all_space s hsp
      dsimp only
      rw [hstrip]
      simp

/-- C9: the inactivity flush: in text mode, with a non-empty buffer and
more than timeout_ms elapsed since the last byte, the poll step processes
the partial buffer exactly as a terminator-completed frame would be
processed (and leaves the cursor at zero); in binary mode the flush never
fires. -/
theorem c9_inactivity_flush (env : Env) (sys : WS) :
    (sys.binary_mode = false → bufPos sys > 0 →
       env.now - sys.last_char_time > sys.timeout_ms →
       process_timeout env sys = process_buffer env sys ∧
       (process_buffer env sys).1.command_buffer = []) ∧
    (sys.binary_mode = true → process_timeout env sys = (sys, [])) := by
  constructor
  · intro h1 h2 h3
    refine ⟨?_, (process_buffer_clears env sys).1⟩
    unfold process_timeout
    rw [if_pos ⟨h1, h2, h3⟩]
  · intro h1
    unfold process_timeout
    rw [if_neg (fun hc => by rw [h1] at hc; exact absurd hc.1 (by simp))]

/-- The cursor bound is preserved by any amount of incoming data: appending
is guarded by cursor < buffer_size - 1, and every other path resets the
cursor. -/
theorem process_data_cursor (env : Env) (data : List Nat) (sys : WS)
    (h : bufPos sys ≤ sys.buffer_size - 1) :
    bufPos (process_data env data sys).1 ≤ sys.buffer_size - 1 ∧
    (process_data env data sys).1.buffer_size = sys.buffer_size := by
  induction data generalizing sys with
  | nil => exact ⟨h, rfl⟩
  | cons b rest ih =>
    unfold process_data
    split
    · rcases heq : process_buffer env sys with ⟨sys2, out⟩
      have hc := process_buffer_clears env sys
      rw [heq] at hc
      have h2 : bufPos sys2 ≤ sys2.buffer_size - 1 := by
        unfold bufPos
        rw [hc.1]
        exact Nat.zero_le _
      have ih2 := ih sys2 h2
      dsimp only
      rcases heq2 : process_data env rest sys2 with ⟨sys3, out2⟩
      rw [heq2] at ih2
      rw [hc.2] at ih2
      exact ih2
    · split
      · rename_i hlt
        refine ih _ ?_
        show (sys.command_buffer ++ [b]).length ≤ sys.buffer_size - 1
        rw [List.length_append]
        have hlt2 : sys.command_buffer.length < sys.buffer_size - 1 := hlt
        simp only [List.length_singleton]
        omega
      · have h2 : bufPos { sys with command_buffer := ([] : List Nat) } ≤
            sys.buffer_size - 1 := Nat.zero_le _
        have ih2 := ih _ h2
        dsimp only
        rcases heq2 : process_data env rest { sys with command_buffer := ([] : List Nat) }
          with ⟨sys3, out2⟩
        rw [heq2] at ih2
        exact ih2

/-- A non-terminator byte arriving when the cursor cannot advance produces
exactly one buffer-overflow error response and resets the cursor. -/
theorem process_data_overflow_step (env : Env) (b : Nat) (sys : WS)
    (hb : ¬ (b = 10 ∨ b = 13)) (hfull : ¬ (bufPos sys < sys.buffer_size - 1)) :
    process_data env [b] sys =
      ({ sys with command_buffer := [] }, [errResp env "Buffer overflow"]) := by
  unfold process_data
  rw [if_neg hb, if_neg hfull]
  rfl

/-- Concrete environment used by witnesses and counterexamples; the
external collaborators are inert. -/
def envW : Env :=
  { now := 1000, freeMem := 1000000,
    md5 := fun _ => "d41d8cd98f00b204e9800998ecf8427e",
    parseJson := fun _ => none, sysVersion := "3.4.0",
    gpioWrite := fun _ _ => .ok (), hw := fun _ => none }

/-- A freshly constructed engine with the default 2048-byte buffer. -/
def st0 : WS := initWS 2048 0 []

/-- An engine constructed with buffer_size 4 whose command buffer already
holds 3 live bytes: one short of buffer_size, the point at which appending
stops. -/
def stFull : WS := { initWS 4 0 [] with command_buffer := [65, 65, 65] }

set_option maxRecDepth 10000

/-- Feeding 2049 terminator-free bytes to a fresh default engine: exactly
one buffer-overflow error response is sent. -/
theorem process_data_2049_outputs :
    (process_data envW (List.replicate 2049 65) st0).2 =
      [errResp envW "Buffer overflow"] := rfl

/-- The same run leaves the cursor at 1: the overflow fired at byte 2048
and byte 2049 began a new frame. -/
theorem process_data_2049_cursor :
    bufPos (process_data envW (List.replicate 2049 65) st0).1 = 1 := rfl

/-- The same run emits no frame: the packet counter is untouched. -/
theorem process_data_2049_packets :
    (process_data envW (List.replicate 2049 65) st0).1.packet_count = 0 := rfl

/-- C4 (amended): the cursor never exceeds buffer_size - 1 (hence never the
capacity), and any byte that cannot be appended yields exactly one
BufferOverflowError response and an immediate cursor reset; but the
overflow fires at the byte that would bring the cursor to buffer_size - 1,
so feeding 2049 terminator-free bytes to the default capacity-2048 engine
gives one BufferOverflowError at byte 2048, no frame, and a final cursor
of 1 (byte 2049 started a new frame), not 0. -/
theorem c4_overflow_behavior :
    (∀ env data sys, bufPos sys ≤ sys.buffer_size - 1 →
       bufPos (process_data env data sys).1 ≤ sys.buffer_size - 1 ∧
       (process_data env data sys).1.buffer_size = sys.buffer_size) ∧
    (∀ env b sys, ¬ (b = 10 ∨ b = 13) → ¬ (bufPos sys < sys.buffer_size - 1) →
       process_data env [b] sys =
         ({ sys with command_buffer := [] }, [errResp env "Buffer overflow"])) ∧
    ((process_data envW (List.replicate 2049 65) st0).2 =
       [errResp envW "Buffer overflow"] ∧
     bufPos (process_data envW (List.replicate 2049 65) st0).1 = 1 ∧
     (process_data envW (List.replicate 2049 65) st0).1.packet_count = 0) :=
  ⟨process_data_cursor, process_data_overflow_step,
   process_data_2049_outputs, process_data_2049_cursor, process_data_2049_packets⟩

/-- C4 counterexample: the claim's concrete scenario — 2049 terminator-free
bytes into a capacity-2048 buffer — leaves the cursor at 1, not 0. -/
theorem c4_counterexample :
    bufPos (process_data envW (List.replicate 2049 65) st0).1 = 1 ∧
    ¬ (bufPos (process_data envW (List.replicate 2049 65) st0).1 = 0) :=
  ⟨process_data_2049_cursor,
   fun h => Nat.one_ne_zero (process_data_2049_cursor.symm.trans h)⟩

/-- C4 witness: the invariant applied to a fresh engine receiving one byte,
and the overflow step applied to a full buffer. -/
theorem c4_witness :
    bufPos (process_data envW [65] st0).1 ≤ 2047 ∧
    process_data envW [66] stFull =
      ({ stFull with command_buffer := [] }, [errResp envW "Buffer overflow"]) :=
  ⟨(c4_overflow_behavior.1 envW [65] st0 (by decide)).1,
   c4_overflow_behavior.2.1 envW 66 stFull (by decide) (by decide)⟩

/-! Binary Transfer Engine invariants. -/

theorem process_binary_byte_expected (sys : WS) (b : Nat) :
    (process_binary_byte sys b).binary_expected = sys.binary_expected := by
  unfold process_binary_byte
  split <;> rfl

theorem process_binary_byte_le (sys : WS) (b : Nat)
    (h : sys.binary_received ≤ sys.binary_expected) :
    (process_binary_byte sys b).binary_received ≤ sys.binary_expected := by
  unfold process_binary_byte
  split
  · rename_i hlt
    exact Nat.succ_le_of_lt hlt
  · exact h

theorem process_binary_byte_full (sys : WS) (b : Nat)
    (h : sys.binary_received = sys.binary_expected) :
    process_binary_byte sys b = sys := by
  unfold process_binary_byte
  rw [if_neg (fun hlt => absurd h (Nat.ne_of_lt hlt))]

theorem binary_foldl_expected (data : List Nat) (sys : WS) :
    (data.foldl process_binary_byte sys).binary_expected = sys.binary_expected := by
  induction data generalizing sys with
  | nil => rfl
  | cons b rest ih =>
    rw [List.foldl_cons, ih (process_binary_byte sys b),
        process_binary_byte_expected]

theorem binary_foldl_le (data : List Nat) (sys : WS)
    (h : sys.binary_received ≤ sys.binary_expected) :
    (data.foldl process_binary_byte sys).binary_received ≤ sys.binary_expected := by
  induction data generalizing sys with
  | nil => exact h
  | cons b rest ih =>
    rw [List.foldl_cons]
    have h2 := process_binary_byte_le sys b h
    rw [← process_binary_byte_expected sys b] at h2
    have h3 := ih (process_binary_byte sys b) h2
    rw [process_binary_byte_expected sys b] at h3
    exact h3

theorem binary_foldl_full (data : List Nat) (sys : WS)
    (h : sys.binary_received = sys.binary_expected) :
    data.foldl process_binary_byte sys = sys := by
  induction data with
  | nil => rfl
  | cons b rest ih =>
    rw [List.foldl_cons, process_binary_byte_full sys b h, ih]

theorem process_binary_data_fst (data : List Nat) (sys : WS) :
    (process_binary_data data sys).1 = data.foldl process_binary_byte sys := by
  unfold process_binary_data
  dsimp only
  split <;> rfl

/-- C5: while binary mode is active, received never exceeds expected (and
expected is unchanged); once received has reached expected, further bytes
are discarded without touching the capture buffer or the count; and the
bound is an invariant of any sequence of deliveries. -/
theorem c5_binary_received_bound (data : List Nat) (sys : WS)
    (h : sys.binary_received ≤ sys.binary_expected) :
    (process_binary_data data sys).1.binary_received ≤ sys.binary_expected ∧
    (process_binary_data data sys).1.binary_expected = sys.binary_expected ∧
    (sys.binary_received = sys.binary_expected →
       (process_binary_data data sys).1.binary_buffer = sys.binary_buffer ∧
       (process_binary_data data sys).1.binary_received = sys.binary_received) ∧
    (∀ ds : List (List Nat),
       ((ds.foldl (fun s d => (process_binary_data d s).1) sys)).binary_received ≤
       ((ds.foldl (fun s d => (process_binary_data d s).1) sys)).binary_expected) := by
  refine ⟨?_, ?_, ?_, ?_⟩
  · rw [process_binary_data_fst]
    exact binary_foldl_le data sys h
  · rw [process_binary_data_fst]
    exact binary_foldl_expected data sys
  · intro hfull
    rw [process_binary_data_fst, binary_foldl_full data sys hfull]
    exact ⟨rfl, rfl⟩
  · intro ds
    clear data
    induction ds generalizing sys with
    | nil => exact h
    | cons d rest ih =>
      rw [List.foldl_cons]
      refine ih (process_binary_data d sys).1 ?_
      rw [process_binary_data_fst]
      rw [binary_foldl_expected d sys]
      exact binary_foldl_le d sys h

/-- A binary transfer mid-stream: expected 2 bytes, both already received. -/
def stBin : WS :=
  { st0 with binary_mode := true, binary_expected := 2, binary_received := 2,
             binary_buffer := [5, 6] }

/-- C5 witness: delivering two further bytes to a completed transfer leaves
the count at expected and the capture buffer untouched. -/
theorem c5_witness :
    (process_binary_data [7, 8] stBin).1.binary_received ≤ 2 ∧
    (process_binary_data [7, 8] stBin).1.binary_buffer = [5, 6] :=
  ⟨(c5_binary_received_bound [7, 8] stBin (by decide)).1,
   ((c5_binary_received_bound [7, 8] stBin (by decide)).2.2.1 rfl).1⟩

/-! OTA Update Manager: ota_finish safety. -/

/-- When a session's target filename is recorded and the temp artifact path
collides with neither the target nor its backup (as every session created
by ota_start guarantees, since the temp path is the target plus a suffix),
the install tail always succeeds, clears in_progress, and ends with the
temp artifact's content at the target name. -/
theorem ota_finish_install_spec (sys : WS) (n : Int) (f : String) (cont : List Nat)
    (hf : sys.ota_filename = some f) (h1 : ¬ (sys.ota_temp = f))
    (h2 : ¬ (sys.ota_temp = f ++ ".bak"))
    (hcont : fsLookup sys.fs sys.ota_temp = some cont) :
    ∃ sys2 r, ota_finish_install sys n = (sys2, .ok r) ∧
      sys2.ota_in_progress = false ∧
      fsLookup sys2.fs f = some cont := by
  unfold ota_finish_install
  rw [hf]
  dsimp only
  have hl1 : fsLookup (fsRemove sys.fs (f ++ ".bak")) sys.ota_temp = some cont := by
    rw [fsLookup_fsRemove, if_neg h2]
    exact hcont
  cases hr : fsRename (fsRemove sys.fs (f ++ ".bak")) f (f ++ ".bak") with
  | none =>
    dsimp only
    have hren : fsRename (fsRemove sys.fs (f ++ ".bak")) sys.ota_temp f =
        some (fsWrite f cont (fsRemove (fsRemove sys.fs (f ++ ".bak")) sys.ota_temp)) := by
      unfold fsRename
      rw [hl1]
    rw [hren]
    refine ⟨_, _, rfl, rfl, ?_⟩
    rw [fsLookup_fsWrite, if_pos rfl]
  | some fsX =>
    dsimp only
    obtain ⟨c', hc', hfsX⟩ := fsRename_some _ _ _ _ hr
    have hl2 : fsLookup fsX sys.ota_temp = some cont := by
      rw [hfsX, fsLookup_fsWrite, if_neg h2, fsLookup_fsRemove, if_neg h1]
      exact hl1
    have hren : fsRename fsX sys.ota_temp f =
        some (fsWrite f cont (fsRemove fsX sys.ota_temp)) := by
      unfold fsRename
      rw [hl2]
    rw [hren]
    refine ⟨_, _, rfl, rfl, ?_⟩
    rw [fsLookup_fsWrite, if_pos rfl]

/-- C1 (amended): for a session in progress with recorded target f and the
temp path distinct from f and f.bak (true of every ota_start-created
session): a failing ota_finish leaves the target untouched, deletes the
temp artifact, and resets the session to Idle; a successful ota_finish
implies the temp artifact's size equalled expected_size and any supplied
non-empty checksum equalled the computed digest, resets the session to
Idle, and moves the temp artifact's content onto the target.  (The source
skips verification of a supplied but empty checksum string, because `if
self.ota_checksum:` is false for the empty string.) -/
theorem c1_ota_finish_safety (env : Env) (c : CmdData) (sys : WS) (f : String)
    (hip : sys.ota_in_progress = true) (hf : sys.ota_filename = some f)
    (h1 : ¬ (sys.ota_temp = f)) (h2 : ¬ (sys.ota_temp = f ++ ".bak")) :
    (∀ sys2 e, handle_ota_finish env c sys = (sys2, .error e) →
       fsLookup sys2.fs f = fsLookup sys.fs f ∧
       fsLookup sys2.fs sys.ota_temp = none ∧
       sys2.ota_in_progress = false) ∧
    (∀ sys2 r, handle_ota_finish env c sys = (sys2, .ok r) →
       fsStat sys.fs sys.ota_temp = some sys.ota_size ∧
       (∀ ck, sys.ota_checksum = some ck → ¬ (ck = "") →
          env.md5 ((fsLookup sys.fs sys.ota_temp).getD []) = ck) ∧
       sys2.ota_in_progress = false ∧
       fsLookup sys2.fs f = fsLookup sys.fs sys.ota_temp) := by
  have herrCase : ∀ e' : String, handle_ota_finish env c sys =
      ({ sys with fs := fsRemove sys.fs sys.ota_temp, ota_in_progress := false },
       .error e') →
      (∀ sys2 e, handle_ota_finish env c sys = (sys2, .error e) →
         fsLookup sys2.fs f = fsLookup sys.fs f ∧
         fsLookup sys2.fs sys.ota_temp = none ∧
         sys2.ota_in_progress = false) ∧
      (∀ sys2 r, handle_ota_finish env c sys = (sys2, .ok r) →
         fsStat sys.fs sys.ota_temp = some sys.ota_size ∧
         (∀ ck, sys.ota_checksum = some ck → ¬ (ck = "") →
            env.md5 ((fsLookup sys.fs sys.ota_temp).getD []) = ck) ∧
         sys2.ota_in_progress = false ∧
         fsLookup sys2.fs f = fsLookup sys.fs sys.ota_temp) := by
    intro e' hfin
    constructor
    · intro sys2 e heq
      have hco := hfin.symm.trans heq
      injection hco with hA hB
      subst hA
      refine ⟨?_, ?_, rfl⟩
      · show fsLookup (fsRemove sys.fs sys.ota_temp) f = fsLookup sys.fs f
        rw [fsLookup_fsRemove, if_neg (fun hh => h1 hh.symm)]
      · show fsLookup (fsRemove sys.fs sys.ota_temp) sys.ota_temp = none
        rw [fsLookup_fsRemove, if_pos rfl]
    · intro sys2 r heq
      have hco := hfin.symm.trans heq
      injection hco with hA hB
      exact absurd hB (by simp)
  have hstatE : fsStat sys.fs sys.ota_temp = none ∨
      ∃ n, fsStat sys.fs sys.ota_temp = some n := by
    cases fsStat sys.fs sys.ota_temp with
    | none => exact Or.inl rfl
    | some n => exact Or.inr ⟨n, rfl⟩
  rcases hstatE with hstat | ⟨n, hstat⟩
  · have hbody : ota_finish_body env sys = (sys, .error "stat: no such file") := by
      unfold ota_finish_body
      rw [hstat]
    have hfin : handle_ota_finish env c sys =
        ({ sys with fs := fsRemove sys.fs sys.ota_temp, ota_in_progress := false },
         .error ("OTA finish failed: " ++ "stat: no such file")) := by
      unfold handle_ota_finish
      rw [if_pos hip, hbody]
    exact herrCase _ hfin
  · by_cases hn : n = sys.ota_size
    · by_cases hck : checksumTruthy sys.ota_checksum = true ∧
        ¬ (env.md5 ((fsLookup sys.fs sys.ota_temp).getD []) = sys.ota_checksum.getD "")
      · have hbody : ota_finish_body env sys = (sys, .error "Checksum mismatch") := by
          unfold ota_finish_body
          rw [hstat]
          dsimp only
          rw [if_neg (not_not_intro hn), if_pos hck]
        have hfin : handle_ota_finish env c sys =
            ({ sys with fs := fsRemove sys.fs sys.ota_temp, ota_in_progress := false },
             .error ("OTA finish failed: " ++ "Checksum mismatch")) := by
          unfold handle_ota_finish
          rw [if_pos hip, hbody]
        exact herrCase _ hfin
      · have hcontE : ∃ cont, fsLookup sys.fs sys.ota_temp = some cont := by
          unfold fsStat at hstat
          cases hlk : fsLookup sys.fs sys.ota_temp with
          | none => rw [hlk] at hstat; simp at hstat
          | some cont => exact ⟨cont, rfl⟩
        obtain ⟨cont, hcont⟩ := hcontE
        have hbody : ota_finish_body env sys = ota_finish_install sys n := by
          unfold ota_finish_body
          rw [hstat]
          dsimp only
          rw [if_neg (not_not_intro hn), if_neg hck]
        obtain ⟨sys2i, r0, hinst, hidle, hlookf⟩ :=
          ota_finish_install_spec sys n f cont hf h1 h2 hcont
        have hfin : handle_ota_finish env c sys = (sys2i, .ok (some r0)) := by
          unfold handle_ota_finish
          rw [if_pos hip, hbody, hinst]
        constructor
        · intro sys2 e heq
          have hco := hfin.symm.trans heq
          injection hco with hA hB
          exact absurd hB (by simp)
        · intro sys2 r heq
          have hco := hfin.symm.trans heq
          injection hco with hA hB
          subst hA
          refine ⟨?_, ?_, hidle, ?_⟩
          · rw [hstat, hn]
          · intro ck hckeq hckne
            by_contra hmd
            apply hck
            constructor
            · rw [hckeq]
              unfold checksumTruthy
              exact decide_eq_true hckne
            · rw [hckeq]
              exact hmd
          · rw [hlookf, hcont]
    · have hbody : ota_finish_body env sys =
          (sys, .error ("Size mismatch: expected " ++ toString sys.ota_size ++
                        ", got " ++ toString n)) := by
        unfold ota_finish_body
        rw [hstat]
        dsimp only
        rw [if_pos hn]
      have hfin : handle_ota_finish env c sys =
          ({ sys with fs := fsRemove sys.fs sys.ota_temp, ota_in_progress := false },
           .error ("OTA finish failed: " ++ ("Size mismatch: expected " ++
                    toString sys.ota_size ++ ", got " ++ toString n))) := by
        unfold handle_ota_finish
        rw [if_pos hip, hbody]
      exact herrCase _ hfin

/-- A session whose supplied checksum is the empty string: the temp
artifact's size matches, but no digest can ever equal "". -/
def sysEmptyCk : WS :=
  { st0 with ota_in_progress := true, ota_filename := some "m.py",
             ota_temp := "m.py.tmp", ota_size := 1, ota_checksum := some "",
             fs := [("m.py", [9]), ("m.py.tmp", [5])] }

/-- C1 counterexample: a checksum was supplied (the empty string), the
computed digest differs from it, and yet ota_finish succeeds and installs
the temp artifact — the source's truthiness test skips verification of an
empty checksum, so success does not imply the supplied checksum matched. -/
theorem c1_counterexample :
    sysEmptyCk.ota_checksum = some "" ∧
    ¬ (envW.md5 ((fsLookup sysEmptyCk.fs sysEmptyCk.ota_temp).getD []) = "") ∧
    (handle_ota_finish envW (mkCmd "ota_finish") sysEmptyCk).2 =
      .ok (some (.otaComplete "m.py" 1 "m.py.bak" false)) ∧
    fsLookup (handle_ota_finish envW (mkCmd "ota_finish") sysEmptyCk).1.fs "m.py" =
      some [5] :=
  ⟨rfl, by decide, rfl, rfl⟩

/-- A session mid-transfer whose temp artifact holds 1 byte although 2 were
announced. -/
def sysC6 : WS :=
  { st0 with ota_in_progress := true, ota_filename := some "main.py",
             ota_temp := "main.py.tmp", ota_size := 2, ota_received := 1,
             fs := [("main.py.tmp", [1])] }

/-- C1 witness: the amended theorem applied to the short session (the
finish fails on the size check) and to the empty-checksum session (the
finish succeeds): cleanup facts for the former, install facts for the
latter. -/
theorem c1_witness :
    (fsLookup (handle_ota_finish envW (mkCmd "ota_finish") sysC6).1.fs "main.py" =
       fsLookup sysC6.fs "main.py" ∧
     fsLookup (handle_ota_finish envW (mkCmd "ota_finish") sysC6).1.fs "main.py.tmp" =
       none ∧
     (handle_ota_finish envW (mkCmd "ota_finish") sysC6).1.ota_in_progress = false) ∧
    ((handle_ota_finish envW (mkCmd "ota_finish") sysEmptyCk).1.ota_in_progress = false ∧
     fsLookup (handle_ota_finish envW (mkCmd "ota_finish") sysEmptyCk).1.fs "m.py" =
       fsLookup sysEmptyCk.fs "m.py.tmp") :=
  ⟨(c1_ota_finish_safety envW (mkCmd "ota_finish") sysC6 "main.py"
      rfl rfl (by decide) (by decide)).1 _ _ rfl,
   ⟨((c1_ota_finish_safety envW (mkCmd "ota_finish") sysEmptyCk "m.py"
        rfl rfl (by decide) (by decide)).2 _ _ rfl).2.2.1,
    ((c1_ota_finish_safety envW (mkCmd "ota_finish") sysEmptyCk "m.py"
        rfl rfl (by decide) (by decide)).2 _ _ rfl).2.2.2⟩⟩

/-- C2 (amended): handle_ota_chunk performs no received-vs-expected check —
each valid chunk is appended to the temp artifact in full and ota_received
grows by its full length, so received_size can exceed expected_size; the
overshoot is caught only by ota_finish, whose size check fails whenever
the temp artifact's size differs from expected_size. -/
theorem c2_chunk_appends_in_full :
    (∀ env c sys chunk, sys.ota_in_progress = true → CmdData.data c = some chunk →
       ¬ (chunk = []) → (∀ b ∈ chunk, b < 256) →
       handle_ota_chunk env c sys =
         ({ sys with fs := fsAppend sys.fs sys.ota_temp chunk,
                     ota_received := sys.ota_received + (chunk.length : Int) },
          .ok (some (.otaProgress (sys.ota_received + (chunk.length : Int))
                     sys.ota_size)))) ∧
    (∀ env c sys n, sys.ota_in_progress = true →
       fsStat sys.fs sys.ota_temp = some n → ¬ (n = sys.ota_size) →
       (handle_ota_finish env c sys).2 =
         .error ("OTA finish failed: " ++ ("Size mismatch: expected " ++
                 toString sys.ota_size ++ ", got " ++ toString n))) := by
  constructor
  · intro env c sys chunk hip hdata hne hbytes
    unfold handle_ota_chunk
    rw [if_pos hip, hdata]
    simp only [Option.getD_some]
    rw [if_neg hne, if_neg (not_not_intro hbytes)]
  · intro env c sys n hip hstat hne
    have hbody : ota_finish_body env sys =
        (sys, .error ("Size mismatch: expected " ++ toString sys.ota_size ++
                      ", got " ++ toString n)) := by
      unfold ota_finish_body
      rw [hstat]
      dsimp only
      rw [if_pos hne]
    unfold handle_ota_finish
    rw [if_pos hip, hbody]

/-- A one-byte session about to be overrun. -/
def sysC2 : WS :=
  { st0 with ota_in_progress := true, ota_filename := some "a.py",
             ota_temp := "a.py.tmp", ota_size := 1, fs := [("a.py.tmp", [])] }

/-- An ota_chunk carrying two bytes. -/
def cC2 : CmdData := .mk (some "ota_chunk") none none none (some [1, 2]) none none

/-- C2 counterexample: a two-byte chunk delivered to a session expecting
one byte is appended in full, leaving received_size = 2 > 1 =
expected_size — the invariant received_size ≤ expected_size fails. -/
theorem c2_counterexample :
    sysC2.ota_size = 1 ∧
    (handle_ota_chunk envW cC2 sysC2).1.ota_received = 2 ∧
    ¬ ((handle_ota_chunk envW cC2 sysC2).1.ota_received ≤ sysC2.ota_size) ∧
    fsLookup (handle_ota_chunk envW cC2 sysC2).1.fs "a.py.tmp" = some [1, 2] :=
  ⟨rfl, rfl, by decide, rfl⟩

/-- C2 witness: the amended theorem applied to the overrunning chunk and to
the resulting size-mismatched finish. -/
theorem c2_witness :
    handle_ota_chunk envW cC2 sysC2 =
      ({ sysC2 with fs := fsAppend sysC2.fs "a.py.tmp" [1, 2], ota_received := 2 },
       .ok (some (.otaProgress 2 1))) ∧
    (handle_ota_finish envW (mkCmd "ota_finish") sysC6).2 =
      .error ("OTA finish failed: " ++ ("Size mismatch: expected " ++
              toString sysC6.ota_size ++ ", got " ++ toString (1 : Int))) :=
  ⟨c2_chunk_appends_in_full.1 envW cC2 sysC2 [1, 2] rfl rfl (by decide) (by decide),
   c2_chunk_appends_in_full.2 envW (mkCmd "ota_finish") sysC6 1 rfl rfl (by decide)⟩

/-- C3 (amended): handle_ota_start does not check ota_in_progress: whenever
size > 0 and the memory-headroom check passes, it succeeds regardless of
any session already in progress and overwrites the session fields with the
new session; at most one session exists only because the manager stores a
single session record. -/
theorem c3_ota_start_overwrites (env : Env) (c : CmdData) (sys : WS) (s : Int)
    (hs : CmdData.size c = some s) (h0 : 0 < s) (hm : 5 * s ≤ 4 * env.freeMem) :
    handle_ota_start env c sys =
      ({ sys with ota_in_progress := true,
                  ota_filename := some ((CmdData.filename c).getD "main.py"),
                  ota_size := s, ota_received := 0,
                  ota_checksum := CmdData.checksum c,
                  ota_temp := (CmdData.filename c).getD "main.py" ++ ".tmp",
                  fs := fsWrite ((CmdData.filename c).getD "main.py" ++ ".tmp")
                          [] sys.fs },
       .ok (some (.otaReady ((CmdData.filename c).getD "main.py") s
                  ((CmdData.filename c).getD "main.py" ++ ".tmp")))) := by
  unfold handle_ota_start
  rw [hs]
  simp only [Option.getD_some]
  rw [if_neg (by omega), if_neg (by omega)]

/-- The first session's start command. -/
def cStartA : CmdData := .mk (some "ota_start") (some "a.py") (some 10) none none none none

/-- A second, different start command issued while the first is in
progress. -/
def cStartB : CmdData := .mk (some "ota_start") (some "b.py") (some 5) none none none none

/-- The state after the first ota_start: a session is in progress. -/
def stInProg : WS := (handle_ota_start envW cStartA st0).1

/-- C3 counterexample: with a session already in progress, a second
ota_start does not fail with an error — it succeeds and replaces the
session in progress with the new one. -/
theorem c3_counterexample :
    stInProg.ota_in_progress = true ∧
    (handle_ota_start envW cStartB stInProg).2 =
      .ok (some (.otaReady "b.py" 5 "b.py.tmp")) ∧
    (handle_ota_start envW cStartB stInProg).1.ota_filename = some "b.py" ∧
    (handle_ota_start envW cStartB stInProg).1.ota_size = 5 :=
  ⟨rfl, rfl, rfl, rfl⟩

/-- C3 witness: the amended theorem applied to the second start issued
while a session is in progress. -/
theorem c3_witness :
    handle_ota_start envW cStartB stInProg =
      ({ stInProg with ota_in_progress := true, ota_filename := some "b.py",
                       ota_size := 5, ota_received := 0, ota_checksum := none,
                       ota_temp := "b.py.tmp",
                       fs := fsWrite "b.py.tmp" [] stInProg.fs },
       .ok (some (.otaReady "b.py" 5 "b.py.tmp"))) :=
  c3_ota_start_overwrites envW cStartB stInProg 5 rfl (by decide) (by decide)

/-- C8: for any registered command, when the dispatched handler returns a
(truthy) result, process_json_command sends exactly that result value —
nothing added, removed or changed (serialization by send_json is
value-preserving in this model, which is exactly the Response Encoder
allowance of the claim). -/
theorem c8_dispatch_passthrough (env : Env) (c : CmdData) (sys sys2 : WS)
    (cmd : String) (r : Resp) (hc : CmdData.command c = some cmd)
    (hreg : registered env cmd = true)
    (hrun : dispatchHandler env cmd c sys = (sys2, .ok (some r))) :
    process_json_command env c sys = (sys2, [r]) := by
  unfold process_json_command
  rw [hc]
  dsimp only
  rw [if_pos hreg, hrun]

/-- C8 witness: a ping frame returns exactly the handler's pong payload. -/
theorem c8_witness :
    process_json_command envW (mkCmd "ping") st0 = (st0, [Resp.pong 1000 1000]) :=
  c8_dispatch_passthrough envW (mkCmd "ping") st0 st0 "ping" (Resp.pong 1000 1000)
    rfl rfl rfl

/-! Batch Executor: nested batch rejection and failure accounting. -/

/-- An item naming batch is rejected before any handler runs: the engine
state is returned unchanged with the indexed nested-batch error. -/
theorem batchItem_nested (env : Env) (c : CmdData) (sys : WS)
    (hcmd : CmdData.command c = some "batch") :
    batchItem env c sys = (sys, .error "Nested batch not allowed") := by
  unfold batchItem
  rw [hcmd]
  dsimp only
  rw [if_pos (show registered env "batch" = true from rfl), if_pos rfl]

/-- An item naming batch contributes the nested-batch error at its original
index, wherever it sits in the list. -/
theorem batchLoop_nested_mem (env : Env) (cs : List CmdData) (i k : Nat)
    (item : CmdData) (sys : WS) (hk : cs[k]? = some item)
    (hcmd : CmdData.command item = some "batch") :
    (i + k, "Nested batch not allowed") ∈ (batchLoop env cs i sys).2.2 := by
  induction cs generalizing i k sys with
  | nil => simp at hk
  | cons c rest ih =>
    cases k with
    | zero =>
      rw [List.getElem?_cons_zero] at hk
      injection hk with hk2
      subst hk2
      unfold batchLoop
      rw [batchItem_nested env c sys hcmd]
      dsimp only
      rcases hl : batchLoop env rest (i + 1) sys with ⟨sys3, rs, es⟩
      simp
    | succ k' =>
      rw [List.getElem?_cons_succ] at hk
      unfold batchLoop
      rcases hbi : batchItem env c sys with ⟨sys2, out⟩
      have harith : i + (k' + 1) = (i + 1) + k' := by omega
      cases out with
      | ok o =>
        have hmem := ih (i + 1) k' sys2 hk
        rcases hl : batchLoop env rest (i + 1) sys2 with ⟨sys3, rs, es⟩
        rw [hl] at hmem
        cases o <;> simp only [hbi, hl] <;> rw [harith] <;> simpa using hmem
      | error e =>
        have hmem := ih (i + 1) k' sys2 hk
        rcases hl : batchLoop env rest (i + 1) sys2 with ⟨sys3, rs, es⟩
        rw [hl] at hmem
        simp only [hbi, hl]
        rw [harith]
        exact List.mem_cons_of_mem _ (by simpa using hmem)

/-- C7: a batch item whose command is batch is always rejected with the
indexed nested-batch error, at any position, and its processing leaves the
engine state unchanged — the batch handler is never entered for it. -/
theorem c7_nested_batch_rejected (env : Env) (data : CmdData) (cs : List CmdData)
    (k : Nat) (item : CmdData) (sys : WS)
    (hcs : CmdData.commands data = some cs) (hk : cs[k]? = some item)
    (hcmd : CmdData.command item = some "batch") :
    (∃ sys2 rs es, handle_batch env data sys =
        (sys2, .ok (some (.batchResult cs.length rs.length es.length rs es))) ∧
        (k, "Nested batch not allowed") ∈ es) ∧
    (∀ s : WS, batchItem env item s = (s, .error "Nested batch not allowed")) := by
  constructor
  · unfold handle_batch
    rw [hcs]
    simp only [Option.getD_some]
    have hne : cs.isEmpty = false := by
      cases cs
      · simp at hk
      · rfl
    rw [if_neg (by rw [hne]; simp)]
    have hmem := batchLoop_nested_mem env cs 0 k item sys hk hcmd
    rcases hl : batchLoop env cs 0 sys with ⟨sys2, rs, es⟩
    rw [hl] at hmem
    refine ⟨sys2, rs, es, ?_, ?_⟩
    · rfl
    · simpa using hmem
  · intro s
    exact batchItem_nested env item s hcmd

/-- C7 witness: a batch containing only a nested batch item reports the
indexed error. -/
theorem c7_witness :
    (∃ sys2 rs es, handle_batch envW
        (CmdData.mk (some "batch") none none none none none (some [mkCmd "batch"])) st0 =
        (sys2, .ok (some (.batchResult 1 rs.length es.length rs es))) ∧
        (0, "Nested batch not allowed") ∈ es) ∧
    (∀ s : WS, batchItem envW (mkCmd "batch") s =
       (s, .error "Nested batch not allowed")) :=
  c7_nested_batch_rejected envW
    (CmdData.mk (some "batch") none none none none none (some [mkCmd "batch"]))
    [mkCmd "batch"] 0 (mkCmd "batch") st0 rfl rfl rfl

/-! Every embedded handler that returns without raising returns a truthy
result dict, so handle_batch's `if result:` records it: items are never
silently dropped from the accounting. -/

theorem handle_ping_ok (env : Env) (c : CmdData) (sys : WS) (o : Option Resp)
    (h : (handle_ping env c sys).2 = .ok o) : o.isSome = true := by
  unfold handle_ping at h
  injection h with h2
  rw [← h2]
  rfl

theorem handle_binary_start_ok (env : Env) (c : CmdData) (sys : WS) (o : Option Resp)
    (h : (handle_binary_start env c sys).2 = .ok o) : o.isSome = true := by
  unfold handle_binary_start at h
  dsimp only at h
  split at h
  · exact absurd h (by simp)
  · injection h with h2
    rw [← h2]
    rfl

theorem handle_binary_end_ok (env : Env) (c : CmdData) (sys : WS) (o : Option Resp)
    (h : (handle_binary_end env c sys).2 = .ok o) : o.isSome = true := by
  unfold handle_binary_end at h
  dsimp only at h
  split at h
  · injection h with h2
    rw [← h2]
    rfl
  · exact absurd h (by simp)

theorem handle_ota_start_ok (env : Env) (c : CmdData) (sys : WS) (o : Option Resp)
    (h : (handle_ota_start env c sys).2 = .ok o) : o.isSome = true := by
  unfold handle_ota_start at h
  dsimp only at h
  split at h
  · exact absurd h (by simp)
  · split at h
    · exact absurd h (by simp)
    · injection h with h2
      rw [← h2]
      rfl

theorem handle_ota_chunk_ok (env : Env) (c : CmdData) (sys : WS) (o : Option Resp)
    (h : (handle_ota_chunk env c sys).2 = .ok o) : o.isSome = true := by
  unfold handle_ota_chunk at h
  dsimp only at h
  split at h
  · split at h
    · exact absurd h (by simp)
    · split at h
      · exact absurd h (by simp)
      · injection h with h2
        rw [← h2]
        rfl
  · exact absurd h (by simp)

theorem handle_ota_finish_ok (env : Env) (c : CmdData) (sys : WS) (o : Option Resp)
    (h : (handle_ota_finish env c sys).2 = .ok o) : o.isSome = true := by
  unfold handle_ota_finish at h
  split at h
  · split at h
    · injection h with h2
      rw [← h2]
      rfl
    · exact absurd h (by simp)
  · exact absurd h (by simp)

theorem handle_ota_abort_ok (env : Env) (c : CmdData) (sys : WS) (o : Option Resp)
    (h : (handle_ota_abort env c sys).2 = .ok o) : o.isSome = true := by
  unfold handle_ota_abort at h
  injection h with h2
  rw [← h2]
  rfl

theorem batchItem_ok_isSome (env : Env) (c : CmdData) (sys : WS) (o : Option Resp)
    (h : (batchItem env c sys).2 = .ok o) : o.isSome = true := by
  unfold batchItem at h
  split at h
  · exact absurd h (by simp)
  · split at h
    · split at h
      · exact absurd h (by simp)
      · rename_i cmd hcm hreg hnb
        unfold invokeRegistered at h
        split at h
        · rename_i cmd2 hfun0 heq
          have hcases : ∀ hfun : Handler, handlersNB cmd = some hfun →
              (hfun env c sys).2 = .ok o → o.isSome = true := by
            intro hfun hfeq
            unfold handlersNB at hfeq
            split at hfeq
            · injection hfeq with hf2; rw [← hf2]; exact handle_ping_ok env c sys o
            · injection hfeq with hf2; rw [← hf2]; exact handle_binary_start_ok env c sys o
            · injection hfeq with hf2; rw [← hf2]; exact handle_binary_end_ok env c sys o
            · injection hfeq with hf2; rw [← hf2]; exact handle_ota_start_ok env c sys o
            · injection hfeq with hf2; rw [← hf2]; exact handle_ota_chunk_ok env c sys o
            · injection hfeq with hf2; rw [← hf2]; exact handle_ota_finish_ok env c sys o
            · injection hfeq with hf2; rw [← hf2]; exact handle_ota_abort_ok env c sys o
            · exact absurd hfeq (by simp)
          exact hcases _ heq h
        · split at h
          · rename_i f hf
            cases hfc : f c with
            | ok r =>
              rw [hfc] at h
              simp only [Except.map] at h
              injection h with h2
              rw [← h2]
              rfl
            | error e =>
              rw [hfc] at h
              simp [Except.map] at h
          · exact absurd h (by simp)
    · exact absurd h (by simp)

/-- Every item contributes exactly one entry: success_count + error_count
equals the number of items. -/
theorem batchLoop_counts (env : Env) (cs : List CmdData) (i : Nat) (sys : WS) :
    (batchLoop env cs i sys).2.1.length + (batchLoop env cs i sys).2.2.length =
      cs.length := by
  induction cs generalizing i sys with
  | nil => rfl
  | cons c rest ih =>
    unfold batchLoop
    rcases hbi : batchItem env c sys with ⟨sys2, out⟩
    cases out with
    | ok o =>
      have hsome := batchItem_ok_isSome env c sys o (by rw [hbi])
      cases o with
      | none => simp at hsome
      | some r =>
        dsimp only
        rcases hl : batchLoop env rest (i + 1) sys2 with ⟨sys3, rs, es⟩
        have hc := ih (i + 1) sys2
        rw [hl] at hc
        simp only [List.length_cons]
        simp at hc ⊢
        omega
    | error e =>
      dsimp only
      rcases hl : batchLoop env rest (i + 1) sys2 with ⟨sys3, rs, es⟩
      have hc := ih (i + 1) sys2
      rw [hl] at hc
      simp only [List.length_cons]
      simp at hc ⊢
      omega

/-- Every index is accounted for: each item is recorded under its original
index either as a success or as an error. -/
theorem batchLoop_mem (env : Env) (cs : List CmdData) (i k : Nat) (sys : WS)
    (hk : k < cs.length) :
    (∃ e, (i + k, e) ∈ (batchLoop env cs i sys).2.2) ∨
    (∃ r, (i + k, r) ∈ (batchLoop env cs i sys).2.1) := by
  induction cs generalizing i k sys with
  | nil => simp at hk
  | cons c rest ih =>
    unfold batchLoop
    rcases hbi : batchItem env c sys with ⟨sys2, out⟩
    cases k with
    | zero =>
      cases out with
      | ok o =>
        have hsome := batchItem_ok_isSome env c sys o (by rw [hbi])
        cases o with
        | none => simp at hsome
        | some r =>
          dsimp only
          rcases hl : batchLoop env rest (i + 1) sys2 with ⟨sys3, rs, es⟩
          right
          exact ⟨r, by simp⟩
      | error e =>
        dsimp only
        rcases hl : batchLoop env rest (i + 1) sys2 with ⟨sys3, rs, es⟩
        left
        exact ⟨e, by simp⟩
    | succ k' =>
      have hk' : k' < rest.length := by simpa using hk
      have harith : i + (k' + 1) = (i + 1) + k' := by omega
      cases out with
      | ok o =>
        have hmem := ih (i + 1) k' sys2 hk'
        cases o with
        | none =>
          dsimp only
          rw [harith]
          exact hmem
        | some r =>
          dsimp only
          rcases hl : batchLoop env rest (i + 1) sys2 with ⟨sys3, rs, es⟩
          rw [hl] at hmem
          rw [harith]
          rcases hmem with ⟨e, he⟩ | ⟨r', hr'⟩
          · exact Or.inl ⟨e, by simpa using he⟩
          · exact Or.inr ⟨r', List.mem_cons_of_mem _ (by simpa using hr')⟩
      | error e0 =>
        have hmem := ih (i + 1) k' sys2 hk'
        dsimp only
        rcases hl : batchLoop env rest (i + 1) sys2 with ⟨sys3, rs, es⟩
        rw [hl] at hmem
        rw [harith]
        rcases hmem with ⟨e, he⟩ | ⟨r', hr'⟩
        · exact Or.inl ⟨e, List.mem_cons_of_mem _ (by simpa using he)⟩
        · exact Or.inr ⟨r', by simpa using hr'⟩

/-- C6 (amended): a batch of N items reports total = N and success_count +
error_count = N, and every item is recorded under its original index as
exactly one of an indexed success or an indexed error; an item that fails
at dispatch level (missing command field, unknown command, or nested
batch) leaves the engine state unchanged, so such a failure cannot affect
the other items — but an item whose handler raises after mutating state
(as a failing ota_finish does) can change the outcome of later items, so
items after a failed one are not in general the same as if it were
absent. -/
theorem c6_batch_accounting :
    (∀ env data cs sys, CmdData.commands data = some cs → ¬ (cs = []) →
       ∃ sys2 rs es, handle_batch env data sys =
           (sys2, .ok (some (.batchResult cs.length rs.length es.length rs es))) ∧
         rs.length + es.length = cs.length ∧
         (∀ k, k < cs.length → (∃ e, (k, e) ∈ es) ∨ (∃ r, (k, r) ∈ rs))) ∧
    (∀ env c sys, (CmdData.command c = none ∨
        (∀ cmd, CmdData.command c = some cmd →
           registered env cmd = false ∨ cmd = "batch")) →
       ∃ e, batchItem env c sys = (sys, .error e)) := by
  constructor
  · intro env data cs sys hcs hne
    unfold handle_batch
    rw [hcs]
    simp only [Option.getD_some]
    rw [if_neg (by rw [List.isEmpty_iff]; exact hne)]
    have hcounts := batchLoop_counts env cs 0 sys
    have hmem := fun k hk => batchLoop_mem env cs 0 k sys hk
    rcases hl : batchLoop env cs 0 sys with ⟨sys2, rs, es⟩
    rw [hl] at hcounts
    refine ⟨sys2, rs, es, rfl, hcounts, ?_⟩
    intro k hk
    have := hmem k hk
    rw [hl] at this
    simpa using this
  · intro env c sys hc
    unfold batchItem
    cases hcm : CmdData.command c with
    | none => exact ⟨_, rfl⟩
    | some cmd =>
      rcases hc with hnone | hall
      · rw [hcm] at hnone
        exact absurd hnone (by simp)
      · rcases hall cmd hcm with hreg | hbatch
        · dsimp only
          rw [if_neg (by rw [hreg]; simp)]
          exact ⟨_, rfl⟩
        · subst hbatch
          dsimp only
          split
          · rw [if_pos rfl]
            exact ⟨_, rfl⟩
          · exact ⟨_, rfl⟩

/-- An ota_chunk item used inside batches. -/
def itemChunk : CmdData := .mk (some "ota_chunk") none none none (some [7]) none none

/-- A batch whose first item is an ota_finish that will fail (and mutate
state) and whose second is an ota_chunk. -/
def dataFull : CmdData :=
  .mk (some "batch") none none none none none (some [mkCmd "ota_finish", itemChunk])

/-- The same batch without the failing first item. -/
def dataSolo : CmdData :=
  .mk (some "batch") none none none none none (some [itemChunk])

/-- C6 counterexample: in the two-item batch the failing ota_finish at
index 0 resets the OTA session before raising, so the ota_chunk at index 1
fails with no-session; run alone, the very same ota_chunk item succeeds —
the items other than the failing one are not the same as if it were
absent. -/
theorem c6_counterexample :
    (handle_batch envW dataFull sysC6).2 =
      .ok (some (.batchResult 2 0 2 []
        [(0, "OTA finish failed: Size mismatch: expected 2, got 1"),
         (1, "No OTA in progress")])) ∧
    (handle_batch envW dataSolo sysC6).2 =
      .ok (some (.batchResult 1 1 0 [(0, .otaProgress 2 2)] [])) :=
  ⟨rfl, rfl⟩

/-- C6 witness: the accounting applied to the one-item batch, and the
dispatch-level purity applied to an unknown command. -/
theorem c6_witness :
    (∃ sys2 rs es, handle_batch envW dataSolo sysC6 =
        (sys2, .ok (some (.batchResult 1 rs.length es.length rs es))) ∧
      rs.length + es.length = 1 ∧
      (∀ k, k < 1 → (∃ e, (k, e) ∈ es) ∨ (∃ r, (k, r) ∈ rs))) ∧
    (∃ e, batchItem envW (mkCmd "nope") st0 = (st0, .error e)) :=
  ⟨c6_batch_accounting.1 envW dataSolo [itemChunk] sysC6 rfl (by simp),
   c6_batch_accounting.2 envW (mkCmd "nope") st0
     (Or.inr (fun cmd hc => Or.inl (by
        injection hc with h2
        rw [← h2]
        rfl)))⟩

/-- A text-mode engine holding one stalled byte. -/
def sysW9 : WS := { st0 with command_buffer := [65] }

/-- The same stalled buffer while binary mode is active. -/
def sysW9bin : WS := { st0 with binary_mode := true, command_buffer := [65] }

/-- C9 witness: the flush fires on a stalled text-mode byte after the
window, and never in binary mode. -/
theorem c9_witness :
    (process_timeout envW sysW9 = process_buffer envW sysW9 ∧
     (process_buffer envW sysW9).1.command_buffer = []) ∧
    process_timeout envW sysW9bin = (sysW9bin, []) :=
  ⟨(c9_inactivity_flush envW sysW9).1 rfl (by decide) (by decide),
   (c9_inactivity_flush envW sysW9bin).2 rfl⟩

/-- A buffer holding only spaces and a tab. -/
def sysW10 : WS := { st0 with command_buffer := [32, 9, 32] }

/-- C10 witness: the whitespace-only frame is dropped silently. -/
theorem c10_witness :
    process_buffer envW sysW10 = ({ sysW10 with command_buffer := [] }, []) :=
  c10_whitespace_frame_silent envW sysW10 (by decide)
